import Mathlib

/-!
Verification of the NEMU sdb expression evaluator and watchpoint pool
(src/nemu/src/monitor/sdb/expr.c and watchpoint.c), as a shallow
embedding: the tokenizer, the recursive range evaluator with its
major-operator scan, and the fixed-capacity watchpoint pool with its
allocate, free, list and check operations.  C control flow is modelled
with explicit fuel (every loop in the source is bounded by the token
count or the pool size, and every entry point supplies enough fuel);
reaching an assert(0) or dereferencing a null pointer is modelled by an
explicit crash outcome.
-/

/-- Machine word modulus.  Modelled from the spec: common.h is not among
the given sources; section 9 of the spec fixes the register width used by
printf("%u", ...) as the 32-bit variant, so word_t = uint32_t and
sword_t = int32_t. -/
def wordMod : Nat := 2 ^ 32

/-- Reinterpret a word_t bit pattern as the C sword_t (two's complement). -/
def toSigned (w : Nat) : Int := if w < 2 ^ 31 then (w : Int) else (w : Int) - 2 ^ 32

/-- Convert a C signed value back to the word_t bit pattern (conversion to
an unsigned type is reduction modulo 2^32). -/
def toWord (i : Int) : Nat := (i % (wordMod : Int)).toNat

/-- word_t addition: val1 + val2 with unsigned wraparound. -/
def wadd (a b : Nat) : Nat := (a + b) % wordMod

/-- word_t subtraction: val1 - val2 with unsigned wraparound. -/
def wsub (a b : Nat) : Nat := toWord ((a : Int) - (b : Int))

/-- word_t multiplication: val1 * val2 with unsigned wraparound. -/
def wmul (a b : Nat) : Nat := (a * b) % wordMod

/-- word_t negation, for the TK_NEG case `return -eval(...)`. -/
def wneg (a : Nat) : Nat := toWord (-(a : Int))

/-- Token types of expr.c: TK_NUM, TK_HEX, TK_REG carry the matched
substring (Token.str); TK_NEG is the unary-minus classification of '-';
the rest are the single-character operator types and TK_EQ. -/
inductive Token where
  | num (s : String)
  | hex (s : String)
  | reg (s : String)
  | neg
  | plus
  | minus
  | star
  | slash
  | lparen
  | rparen
  | eq
deriving DecidableEq

/-- Character class of [0-9a-fA-F]. -/
def isHexDig (c : Char) : Bool := c.isDigit || (decide ('a' ≤ c) && decide (c ≤ 'f')) || (decide ('A' ≤ c) && decide (c ≤ 'F'))

/-- Character class of [0-9a-zA-Z]. -/
def isAlnum (c : Char) : Bool := c.isDigit || c.isAlpha

/-- Raw lexeme produced by one regex rule of expr.c before the minus /
unary-minus classification done in make_token. -/
inductive RawLex where
  | ws
  | num (s : String)
  | hex (s : String)
  | reg (s : String)
  | plus
  | minus
  | star
  | slash
  | lp
  | rp
  | eqeq
deriving DecidableEq

/-- Rules 3 to 11 of expr.c (decimal literal, the single-character
operators and parentheses, "==", register), tried at the cursor in source
order; every pattern is anchored and matched leftmost-longest as POSIX
regexec with the rm_so == 0 check of make_token does.  Returns the lexeme
and the number of characters consumed, or none when no rule matches
(make_token then fails: NoMatch). -/
def ruleRest (cs : List Char) : Option (RawLex × Nat) :=
  let nd := (cs.takeWhile Char.isDigit).length
  if 0 < nd then some (RawLex.num (String.mk (cs.take nd)), nd)
  else
    match cs with
    | '+' :: _ => some (RawLex.plus, 1)
    | '-' :: _ => some (RawLex.minus, 1)
    | '*' :: _ => some (RawLex.star, 1)
    | '/' :: _ => some (RawLex.slash, 1)
    | '(' :: _ => some (RawLex.lp, 1)
    | ')' :: _ => some (RawLex.rp, 1)
    | '=' :: '=' :: _ => some (RawLex.eqeq, 2)
    | '$' :: c :: rest =>
      if c.isAlpha then
        let na := (rest.takeWhile isAlnum).length
        some (RawLex.reg (String.mk ('$' :: c :: rest.take na)), na + 2)
      else none
    | _ => none

/-- Rules 1 and 2 of expr.c (whitespace run, hexadecimal literal
0x[0-9a-fA-F]+) tried before ruleRest, in source order. -/
def matchRule (cs : List Char) : Option (RawLex × Nat) :=
  let nws := (cs.takeWhile (fun c => c = ' ')).length
  if 0 < nws then some (RawLex.ws, nws)
  else
    match cs with
    | '0' :: 'x' :: rest =>
      let nh := (rest.takeWhile isHexDig).length
      if 0 < nh then some (RawLex.hex (String.mk ('0' :: 'x' :: rest.take nh)), nh + 2)
      else ruleRest cs
    | _ => ruleRest cs

/-- is_negative of expr.c: a '-' is a unary minus when the token array is
still empty or the previously emitted token type is one of '+', '-', '*',
'/', '(' (note: TK_NEG itself is not in that list). -/
def is_negative (acc : List Token) : Bool :=
  match acc.getLast? with
  | none => true
  | some t =>
    t = Token.plus || t = Token.minus || t = Token.star || t = Token.slash || t = Token.lparen

/-- Main loop of make_token: repeatedly match the first applicable rule at
the cursor, discard whitespace, classify '-' via is_negative against the
already emitted tokens, and append the token.  Fuel is the remaining input
length (every rule consumes at least one character, so the fuel-exhausted
branch with input left is unreachable from make_token).  The token-buffer
growth of expand_malloc only fails on out-of-memory and is not modelled;
the 31-character Token.str bound is likewise kept abstract (the model
stores the whole matched substring). -/
def make_token_go : Nat → List Char → List Token → Option (List Token)
  | _, [], acc => some acc
  | 0, _ :: _, _ => none
  | fuel + 1, cs, acc =>
    match matchRule cs with
    | none => none
    | some (l, len) =>
      let rest := cs.drop len
      match l with
      | RawLex.ws => make_token_go fuel rest acc
      | RawLex.num s => make_token_go fuel rest (acc ++ [Token.num s])
      | RawLex.hex s => make_token_go fuel rest (acc ++ [Token.hex s])
      | RawLex.reg s => make_token_go fuel rest (acc ++ [Token.reg s])
      | RawLex.plus => make_token_go fuel rest (acc ++ [Token.plus])
      | RawLex.minus =>
        make_token_go fuel rest (acc ++ [if is_negative acc then Token.neg else Token.minus])
      | RawLex.star => make_token_go fuel rest (acc ++ [Token.star])
      | RawLex.slash => make_token_go fuel rest (acc ++ [Token.slash])
      | RawLex.lp => make_token_go fuel rest (acc ++ [Token.lparen])
      | RawLex.rp => make_token_go fuel rest (acc ++ [Token.rparen])
      | RawLex.eqeq => make_token_go fuel rest (acc ++ [Token.eq])

/-- make_token of expr.c: tokenize the whole input; none is the NoMatch
failure (make_token returns false). -/
def make_token (e : String) : Option (List Token) :=
  make_token_go e.length e.data []

/-- strtol(str, NULL, 10) on a token made of decimal digits.  The model
uses the exact positional value (LONG_MAX clamping of strtol only differs
on literals of 19 or more digits; the word_t truncation is applied by the
caller, as in C). -/
def strtolDec (s : String) : Nat :=
  s.data.foldl (fun a c => a * 10 + (c.toNat - 48)) 0

/-- Value of one hexadecimal digit character. -/
def hexDigVal (c : Char) : Nat :=
  if c.isDigit then c.toNat - 48
  else if decide ('a' ≤ c) && decide ('f' ≥ c) then c.toNat - 87
  else if decide ('A' ≤ c) && decide ('F' ≥ c) then c.toNat - 55
  else 0

/-- strtol(str, NULL, 16) on a TK_HEX token: the stored string starts with
the matched 0x prefix, which strtol with base 16 skips. -/
def strtolHex (s : String) : Nat :=
  (s.data.drop 2).foldl (fun a c => a * 16 + hexDigVal c) 0

/-- tokens[i] for an Int index.  Every loop and recursion of expr.c keeps
its indices inside [0, nr_token); the default is never reached from the
entry point expr. -/
def tokenAt (ts : List Token) (i : Int) : Token := ts.getD i.toNat Token.eq

/-- The tokens[i].type == TK_NUM test that opens the find_major loop body. -/
def isNumTok : Token → Bool
  | Token.num _ => true
  | _ => false

/-- Contribution of one token to the parenthesis counters of
check_parentheses and find_major. -/
def parenDelta (t : Token) : Int :=
  if t = Token.lparen then 1 else if t = Token.rparen then -1 else 0

/-- Sum of parenDelta over the k tokens starting at index p. -/
def depthGo (ts : List Token) (p : Int) : Nat → Int
  | 0 => 0
  | k + 1 => depthGo ts p k + parenDelta (tokenAt ts (p + (k : Int)))

/-- Parenthesis nesting depth of position j relative to the start p of a
scanned range: the net count of '(' minus ')' over [p, j). -/
def depthAt (ts : List Token) (p j : Int) : Int := depthGo ts p (j - p).toNat

/-- Loop of check_parentheses over i in [p, q]: tag is updated by the
token at i, and the scan answers false as soon as tag returns to zero
before q.  Fuel counts the remaining indices; at fuel zero the loop has
passed q and the function answers tag == 0. -/
def cp_go (ts : List Token) (q : Int) : Nat → Int → Int → Bool
  | 0, _, tag => tag = 0
  | n + 1, i, tag =>
    let t := tokenAt ts i
    let tag2 := if t = Token.lparen then tag + 1 else if t = Token.rparen then tag - 1 else tag
    if tag2 = 0 ∧ i < q then false else cp_go ts q n (i + 1) tag2

/-- check_parentheses of expr.c: token p must be '(' and token q must be
')', and the nesting count over [p, q] must return to zero only at q. -/
def check_parentheses (ts : List Token) (p q : Int) : Bool :=
  if tokenAt ts p = Token.lparen ∧ tokenAt ts q = Token.rparen then
    cp_go ts q (q + 1 - p).toNat p 0
  else false

/-- Precedence class switch of find_major: '*' and '/' are class 1, '+'
and binary '-' are class 2; every other token type that reaches the
switch falls into default: assert(0) (modelled as none). -/
def tokClass : Token → Option Nat
  | Token.star => some 1
  | Token.slash => some 1
  | Token.plus => some 2
  | Token.minus => some 2
  | _ => none

/-- Result of find_major: ret i is the returned int (i = -1 when no major
operator was selected); crash is the assert(0) in the precedence switch. -/
inductive FMRes where
  | crash
  | ret (i : Int)
deriving DecidableEq

/-- Loop of find_major over i in [p, q] with accumulator ret (best index
so far, initially -1), par (parenthesis depth) and op_type (class of the
best so far, initially 0).  TK_NUM tokens are skipped; '(' and ')' track
par, with an early -1 on a ')' at depth zero; tokens inside parentheses
are skipped; any other token is classified by tokClass and replaces the
accumulator when its class is >= op_type.  Fuel counts the remaining
indices; at fuel zero the loop is done and the function returns -1 when
par is nonzero and ret otherwise. -/
def fm_loop (ts : List Token) : Nat → Int → Int → Int → Nat → FMRes
  | 0, _, ret, par, _ => if par = 0 then FMRes.ret ret else FMRes.ret (-1)
  | fuel + 1, i, ret, par, opt =>
    let t := tokenAt ts i
    if isNumTok t then fm_loop ts fuel (i + 1) ret par opt
    else if t = Token.lparen then fm_loop ts fuel (i + 1) ret (par + 1) opt
    else if t = Token.rparen then
      if par = 0 then FMRes.ret (-1)
      else fm_loop ts fuel (i + 1) ret (par - 1) opt
    else if 0 < par then fm_loop ts fuel (i + 1) ret par opt
    else
      match tokClass t with
      | none => FMRes.crash
      | some c =>
        if opt ≤ c then fm_loop ts fuel (i + 1) i par c
        else fm_loop ts fuel (i + 1) ret par opt

/-- find_major of expr.c on the range [p, q]. -/
def find_major (ts : List Token) (p q : Int) : FMRes :=
  fm_loop ts (q + 1 - p).toNat p (-1) 0 0

/-- Outcome of eval: ok v is a word value with *ok true; fail is *ok set
to false; crash is a reached assert(0). -/
inductive EvalRes where
  | crash
  | fail
  | ok (w : Nat)
deriving DecidableEq

/-- eval of expr.c on the range [p, q], parameterized by the external
register resolver isa_reg_str2val (R; none models *ok = false).  Fuel
bounds the recursion depth; expr supplies nr_token + 1, which is enough
because every recursive call strictly shrinks the range, so the fuel-zero
branch is unreachable from expr.  In the '/' arm the source computes
(sword_t)val1 / (sword_t)val2 after guarding only against val2 == 0: the
one remaining overflow pair INT_MIN / -1 is undefined behavior in C (a
SIGFPE process abort on the host), modelled as crash. -/
def eval (R : String → Option Nat) (ts : List Token) : Nat → Int → Int → EvalRes
  | 0, _, _ => EvalRes.crash
  | fuel + 1, p, q =>
    if q < p then EvalRes.fail
    else if p = q then
      match tokenAt ts p with
      | Token.num s => EvalRes.ok (strtolDec s % wordMod)
      | Token.hex s => EvalRes.ok (strtolHex s % wordMod)
      | Token.reg s =>
        match R s with
        | some v => EvalRes.ok (v % wordMod)
        | none => EvalRes.fail
      | _ => EvalRes.fail
    else if check_parentheses ts p q then eval R ts fuel (p + 1) (q - 1)
    else
      match find_major ts p q with
      | FMRes.crash => EvalRes.crash
      | FMRes.ret major =>
        if major < 0 then EvalRes.fail
        else
          match eval R ts fuel p (major - 1) with
          | EvalRes.crash => EvalRes.crash
          | EvalRes.fail => EvalRes.fail
          | EvalRes.ok val1 =>
            match eval R ts fuel (major + 1) q with
            | EvalRes.crash => EvalRes.crash
            | EvalRes.fail => EvalRes.fail
            | EvalRes.ok val2 =>
              match tokenAt ts major with
              | Token.plus => EvalRes.ok (wadd val1 val2)
              | Token.minus => EvalRes.ok (wsub val1 val2)
              | Token.star => EvalRes.ok (wmul val1 val2)
              | Token.slash =>
                if val2 = 0 then EvalRes.fail
                else if toSigned val1 = -(2 ^ 31) ∧ toSigned val2 = -1 then EvalRes.crash
                else EvalRes.ok (toWord (Int.tdiv (toSigned val1) (toSigned val2)))
              | Token.neg =>
                match eval R ts fuel (major + 1) q with
                | EvalRes.ok v => EvalRes.ok (wneg v)
                | r => r
              | _ => EvalRes.crash

/-- expr of expr.c: tokenize, then evaluate the whole range
[0, nr_token - 1]; a tokenizer failure sets *success = false. -/
def expr (R : String → Option Nat) (e : String) : EvalRes :=
  match make_token e with
  | none => EvalRes.fail
  | some ts => eval R ts (ts.length + 1) 0 ((ts.length : Int) - 1)

/-- Register resolver with no registers, used for the concrete test
expressions (none of which contain a register token that is ever
resolved). -/
def emptyRegs : String → Option Nat := fun _ => none

/-- Pool capacity NR_WP.  Modelled from the spec: watchpoint.h is not
among the given sources; section 3 of the spec fixes N = 32. -/
def NR_WP : Nat := 32

/-- One struct WP of watchpoint.h (modelled from the spec where the header
is missing): NO, the intrusive next pointer (an index into wp_pool, none
for NULL), the used flag, the expression string and old_value.  The
expression and old_value fields are written by the sdb command layer
outside the given sources; init_wp_pool leaves them unset and the model
uses "" and 0 there. -/
structure WPSlot where
  no : Nat
  next : Option Nat
  used : Bool
  expr : String
  old_value : Nat
deriving DecidableEq

/-- The module state of watchpoint.c: the static wp_pool array and the
head and free_ pointers (indices into wp_pool, none for NULL). -/
structure WPState where
  wp_pool : List WPSlot
  head : Option Nat
  free_ : Option Nat
deriving DecidableEq

/-- wp_pool[i].  All pointers in reachable states index the 32-slot pool,
so the default is never consulted by the modelled operations. -/
def slotAt (pool : List WPSlot) (i : Nat) : WPSlot :=
  pool.getD i { no := 0, next := none, used := false, expr := "", old_value := 0 }

/-- Store wp_pool[i]. -/
def setSlot (pool : List WPSlot) (i : Nat) (s : WPSlot) : List WPSlot := pool.set i s

/-- init_wp_pool of watchpoint.c: NO = i, next chains slot i to slot i+1
with NULL at the last slot, used = false, head = NULL, free_ = wp_pool. -/
def init_wp_pool : WPState :=
  { wp_pool := (List.range NR_WP).map (fun i =>
      { no := i, next := if i = NR_WP - 1 then none else some (i + 1), used := false,
        expr := "", old_value := 0 }),
    head := none,
    free_ := some 0 }

/-- Result of new_wp: alloc returns the slot (the WP pointer, as its
index) and the updated state; crash is the assert(0) reached when the
loop guard p->next != NULL fails before an unused slot is found (and also
the null dereference of p->next if free_ were NULL). -/
inductive NewWPRes where
  | crash
  | alloc (idx : Nat) (st : WPState)
deriving DecidableEq

/-- Loop of new_wp: for (p = free_; p->next != NULL; p = p->next), return
the first slot with used == false after marking it used and setting head
when head is NULL.  The guard is tested before the body, so a slot whose
next is NULL is never examined.  Fuel bounds pointer chasing; new_wp
supplies NR_WP + 1, enough for every chain over the 32-slot pool (next
pointers only ever skip forward, so chains stay acyclic). -/
def new_wp_go (st : WPState) : Nat → Option Nat → NewWPRes
  | _, none => NewWPRes.crash
  | 0, some _ => NewWPRes.crash
  | fuel + 1, some p =>
    let s := slotAt st.wp_pool p
    match s.next with
    | none => NewWPRes.crash
    | some _ =>
      if s.used = false then
        NewWPRes.alloc p
          { st with
            wp_pool := setSlot st.wp_pool p { s with used := true },
            head := if st.head = none then some p else st.head }
      else new_wp_go st fuel s.next

/-- new_wp of watchpoint.c. -/
def new_wp (st : WPState) : NewWPRes := new_wp_go st (NR_WP + 1) st.free_

/-- Result of free_wp: done carries the updated state; crash is a null
dereference (head->NO with head NULL, or p->next->used after the relink
made p->next NULL). -/
inductive FreeWPRes where
  | crash
  | done (st : WPState)
deriving DecidableEq

/-- Loop of free_wp: for (p = head; p->next != NULL; p = p->next), when
p->next->NO matches, relink p->next = p->next->next and then clear
p->next->used — i.e. the used flag of the successor that was just linked
in, not of the removed slot.  Falling off the loop returns silently. -/
def free_wp_go (st : WPState) (wpNo : Nat) : Nat → Nat → FreeWPRes
  | 0, _ => FreeWPRes.crash
  | fuel + 1, p =>
    let s := slotAt st.wp_pool p
    match s.next with
    | none => FreeWPRes.done st
    | some nx =>
      let sn := slotAt st.wp_pool nx
      if sn.no = wpNo then
        let pool2 := setSlot st.wp_pool p { s with next := sn.next }
        match sn.next with
        | none => FreeWPRes.crash
        | some nn =>
          let snn := slotAt pool2 nn
          FreeWPRes.done { st with wp_pool := setSlot pool2 nn { snn with used := false } }
      else free_wp_go st wpNo fuel nx

/-- free_wp of watchpoint.c, taking the NO of the argument watchpoint:
when head->NO matches, clear head->used and set head = NULL; otherwise
scan the chain from head with free_wp_go. -/
def free_wp (st : WPState) (wpNo : Nat) : FreeWPRes :=
  match st.head with
  | none => FreeWPRes.crash
  | some h =>
    let sh := slotAt st.wp_pool h
    if sh.no = wpNo then
      FreeWPRes.done
        { st with wp_pool := setSlot st.wp_pool h { sh with used := false }, head := none }
    else free_wp_go st wpNo (NR_WP + 1) h

/-- Walk of info_watchpoints from a pointer, collecting the printed
(NO, expr, old_value) triples; none only on fuel exhaustion, which the
NR_WP + 1 budget of info_watchpoints makes unreachable on the acyclic
chains of this pool. -/
def info_go (st : WPState) : Nat → Option Nat → Option (List (Nat × String × Nat))
  | _, none => some []
  | 0, some _ => none
  | fuel + 1, some p =>
    let s := slotAt st.wp_pool p
    match info_go st fuel s.next with
    | none => none
    | some l => some ((s.no, s.expr, s.old_value) :: l)

/-- info_watchpoints of watchpoint.c: print every node reachable from
head along the next pointers ("No watchpoints." when head is NULL gives
the empty list). -/
def info_watchpoints (st : WPState) : Option (List (Nat × String × Nat)) :=
  info_go st (NR_WP + 1) st.head

/-- Result of check_watchpoints: done carries the final wp_pool, whether
NEMU_STOP was signalled, the NOs reported as triggered, and the slot
whose failed evaluation made the function return early (none when the
pass completed); crash propagates an assert(0) from expr. -/
inductive CheckRes where
  | crash
  | done (pool : List WPSlot) (stopped : Bool) (triggered : List Nat) (errSlot : Option Nat)
deriving DecidableEq

/-- Loop of check_watchpoints over i in [0, NR_WP): skip unused slots;
evaluate the slot expression with expr; on failure print and return — the
whole pass stops, errSlot records the slot; on a changed value set
nemu_state.state = NEMU_STOP, report the watchpoint and store the new
value into old_value.  Fuel counts the remaining indices (NR_WP at
entry). -/
def check_go (R : String → Option Nat) : Nat → Nat → List WPSlot → Bool → List Nat → CheckRes
  | _, 0, pool, stopped, trig => CheckRes.done pool stopped trig none
  | i, fuel + 1, pool, stopped, trig =>
    let s := slotAt pool i
    if s.used then
      match expr R s.expr with
      | EvalRes.crash => CheckRes.crash
      | EvalRes.fail => CheckRes.done pool stopped trig (some i)
      | EvalRes.ok v =>
        if v ≠ s.old_value then
          check_go R (i + 1) fuel (setSlot pool i { s with old_value := v }) true (trig ++ [i])
        else check_go R (i + 1) fuel pool stopped trig
    else check_go R (i + 1) fuel pool stopped trig

/-- check_watchpoints of watchpoint.c. -/
def check_watchpoints (R : String → Option Nat) (st : WPState) : CheckRes :=
  check_go R 0 NR_WP st.wp_pool false []

/-- The lowest-indexed slot whose used flag is false (the slot claim C10
says new_wp returns). -/
def lowestUnused (pool : List WPSlot) : Option Nat :=
  (List.range NR_WP).find? (fun i => !(slotAt pool i).used)

/-- Indices of the active (used) slots in ascending order. -/
def activeIds (pool : List WPSlot) : List Nat :=
  (List.range NR_WP).filter (fun i => (slotAt pool i).used)

/-- State after n consecutive new_wp calls from a given state (a crash
leaves the state as it was when the process died). -/
def allocState : Nat → WPState → WPState
  | 0, st => st
  | n + 1, st =>
    match new_wp st with
    | NewWPRes.crash => st
    | NewWPRes.alloc _ st2 => allocState n st2

/-- Slot indices returned by n consecutive new_wp calls (cut short at a
crash). -/
def allocIds : Nat → WPState → List Nat
  | 0, _ => []
  | n + 1, st =>
    match new_wp st with
    | NewWPRes.crash => []
    | NewWPRes.alloc i st2 => i :: allocIds n st2

/-- Used flag of slot i after a free_wp outcome (none when free_wp
crashed). -/
def freeUsed (r : FreeWPRes) (i : Nat) : Option Bool :=
  match r with
  | FreeWPRes.crash => none
  | FreeWPRes.done st => some (slotAt st.wp_pool i).used

/-- head pointer after a free_wp outcome (none when free_wp crashed). -/
def freeHead (r : FreeWPRes) : Option (Option Nat) :=
  match r with
  | FreeWPRes.crash => none
  | FreeWPRes.done st => some st.head

/-- Position j of a scanned range starting at p holds a top-level
operator of class c: its parenthesis depth relative to p is zero and the
find_major precedence switch classifies it as c. -/
def TopOpAt (ts : List Token) (p j : Int) (c : Nat) : Prop :=
  depthAt ts p j = 0 ∧ tokClass (tokenAt ts j) = some c

/-- Index i is a correct major-operator choice for the range [p, q]: it is
a top-level operator whose precedence class c bounds the class of every
top-level operator of the range, and among operators of class exactly c
it is the rightmost. -/
def IsMajorOf (ts : List Token) (p q i : Int) : Prop :=
  p ≤ i ∧ i ≤ q ∧
  ∃ c, TopOpAt ts p i c ∧
    ∀ j cj, p ≤ j → j ≤ q → TopOpAt ts p j cj → cj ≤ c ∧ (cj = c → j ≤ i)

/-- No top-level operator occurs in [p, a). -/
def NoTopBefore (ts : List Token) (p a : Int) : Prop :=
  ∀ j cj, p ≤ j → j < a → TopOpAt ts p j cj → False

/-- Index r is the rightmost top-level operator of maximal class c within
the prefix [p, a). -/
def BestBefore (ts : List Token) (p a r : Int) (c : Nat) : Prop :=
  p ≤ r ∧ r < a ∧ TopOpAt ts p r c ∧
  ∀ j cj, p ≤ j → j < a → TopOpAt ts p j cj → cj ≤ c ∧ (cj = c → j ≤ r)

/-- Accumulator invariant of the find_major loop: either nothing has been
selected yet (ret = -1, op_type = 0 and no top-level operator has been
scanned), or (ret, op_type) is the rightmost maximal top-level operator
of the scanned prefix. -/
def AccInv (ts : List Token) (p a ret : Int) (opt : Nat) : Prop :=
  (ret = -1 ∧ opt = 0 ∧ NoTopBefore ts p a) ∨ BestBefore ts p a ret opt

/-- Token range of "8-3-2", used to instantiate the C8 theorem. -/
def ts8ex : List Token :=
  [Token.num "8", Token.minus, Token.num "3", Token.minus, Token.num "2"]

/-- Token range of "(0-7)/2", used to instantiate the C9 theorem. -/
def ts9ex : List Token :=
  [Token.lparen, Token.num "0", Token.minus, Token.num "7", Token.rparen,
   Token.slash, Token.num "2"]

/-- State after one allocation from the fresh pool. -/
def wp1 : WPState := allocState 1 init_wp_pool

/-- State after three allocations from the fresh pool (slots 0, 1, 2
active). -/
def wp3 : WPState := allocState 3 init_wp_pool

/-- State after 31 allocations from the fresh pool (slots 0..30 active,
slot 31 still free). -/
def wp31 : WPState := allocState 31 init_wp_pool

/-- Pool with slot 0 active on the malformed expression "+" (its
evaluation fails) and slot 1 active on "1+1" with a stale last value 3,
the C5 scenario. -/
def wpCheckPool : List WPSlot :=
  setSlot (setSlot init_wp_pool.wp_pool 0
      { no := 0, next := some 1, used := true, expr := "+", old_value := 0 })
    1 { no := 1, next := some 2, used := true, expr := "1+1", old_value := 3 }

/-- Module state for the C5 scenario. -/
def wpCheckSt : WPState := { wp_pool := wpCheckPool, head := some 0, free_ := some 0 }

theorem depthAt_base (ts : List Token) (p j : Int) (h : j ≤ p) : depthAt ts p j = 0 := by
  unfold depthAt
  have h0 : (j - p).toNat = 0 := by omega
  rw [h0]
  rfl

theorem depthAt_succ (ts : List Token) (p i : Int) (h : p ≤ i) :
    depthAt ts p (i + 1) = depthAt ts p i + parenDelta (tokenAt ts i) := by
  unfold depthAt
  have h1 : (i + 1 - p).toNat = (i - p).toNat + 1 := by omega
  have h2 : p + (((i - p).toNat : Nat) : Int) = i := by omega
  rw [h1, depthGo, h2]

theorem noTop_extend (ts : List Token) (p i : Int)
    (h : NoTopBefore ts p i)
    (hc : tokClass (tokenAt ts i) = none ∨ depthAt ts p i ≠ 0) :
    NoTopBefore ts p (i + 1) := by
  intro j cj h1 h2 htop
  by_cases hj : j < i
  · exact h j cj h1 hj htop
  · have hji : j = i := by omega
    subst hji
    rcases htop with ⟨hd, hcls⟩
    rcases hc with hc | hc
    · rw [hc] at hcls
      exact Option.noConfusion hcls
    · exact hc hd

theorem best_extend (ts : List Token) (p i r : Int) (c : Nat)
    (h : BestBefore ts p i r c)
    (hc : tokClass (tokenAt ts i) = none ∨ depthAt ts p i ≠ 0) :
    BestBefore ts p (i + 1) r c := by
  obtain ⟨h1, h2, h3, h4⟩ := h
  refine ⟨h1, by omega, h3, ?_⟩
  intro j cj hj1 hj2 htop
  by_cases hj : j < i
  · exact h4 j cj hj1 hj htop
  · have hji : j = i := by omega
    subst hji
    rcases htop with ⟨hd, hcls⟩
    rcases hc with hc | hc
    · rw [hc] at hcls
      exact Option.noConfusion hcls
    · exact absurd hd hc

theorem acc_extend (ts : List Token) (p i ret : Int) (opt : Nat)
    (hacc : AccInv ts p i ret opt)
    (hc : tokClass (tokenAt ts i) = none ∨ depthAt ts p i ≠ 0) :
    AccInv ts p (i + 1) ret opt := by
  rcases hacc with ⟨ha, hb, hn⟩ | hbest
  · exact Or.inl ⟨ha, hb, noTop_extend ts p i hn hc⟩
  · exact Or.inr (best_extend ts p i ret opt hbest hc)

theorem best_update (ts : List Token) (p i ret : Int) (opt c : Nat)
    (hacc : AccInv ts p i ret opt)
    (hp : p ≤ i)
    (htop : TopOpAt ts p i c)
    (hle : opt ≤ c) :
    BestBefore ts p (i + 1) i c := by
  refine ⟨hp, by omega, htop, ?_⟩
  intro j cj hj1 hj2 htopj
  by_cases hj : j < i
  · rcases hacc with ⟨_, hopt, hnone⟩ | ⟨_, _, _, h4⟩
    · exact absurd htopj (fun ht => hnone j cj hj1 hj ht)
    · have hle2 := h4 j cj hj1 hj htopj
      exact ⟨by omega, fun _ => by omega⟩
  · have hji : j = i := by omega
    subst hji
    rcases htop with ⟨_, hcls⟩
    rcases htopj with ⟨_, hclsj⟩
    rw [hcls] at hclsj
    have hcc : c = cj := Option.some.inj hclsj
    exact ⟨by omega, fun _ => by omega⟩

theorem best_keep (ts : List Token) (p i r : Int) (opt c : Nat)
    (h : BestBefore ts p i r opt)
    (htop : TopOpAt ts p i c)
    (hlt : c < opt) :
    BestBefore ts p (i + 1) r opt := by
  obtain ⟨h1, h2, h3, h4⟩ := h
  refine ⟨h1, by omega, h3, ?_⟩
  intro j cj hj1 hj2 htopj
  by_cases hj : j < i
  · exact h4 j cj hj1 hj htopj
  · have hji : j = i := by omega
    subst hji
    rcases htop with ⟨_, hcls⟩
    rcases htopj with ⟨_, hclsj⟩
    rw [hcls] at hclsj
    have hcc : c = cj := Option.some.inj hclsj
    exact ⟨by omega, fun hq => by omega⟩

theorem tokClass_of_num (t : Token) (h : isNumTok t = true) : tokClass t = none := by
  cases t <;> simp_all [isNumTok, tokClass]

theorem parenDelta_of_num (t : Token) (h : isNumTok t = true) : parenDelta t = 0 := by
  cases t <;> simp_all [isNumTok, parenDelta]

theorem fm_loop_post (ts : List Token) (p q : Int) :
    ∀ n i ret par opt r,
      (q + 1 - i).toNat = n →
      p ≤ i → i ≤ q + 1 →
      par = depthAt ts p i → 0 ≤ par →
      AccInv ts p i ret opt →
      fm_loop ts n i ret par opt = FMRes.ret r → 0 ≤ r →
      IsMajorOf ts p q r := by
  intro n
  induction n with
  | zero =>
    intro i ret par opt r hn hpi hiq hpar hpar0 hacc hloop hr
    simp only [fm_loop] at hloop
    by_cases hp0 : par = 0
    · rw [if_pos hp0] at hloop
      have hrr : ret = r := FMRes.ret.inj hloop
      subst hrr
      rcases hacc with ⟨h1, _, _⟩ | ⟨hb1, hb2, hb3, hb4⟩
      · omega
      · refine ⟨hb1, by omega, opt, hb3, ?_⟩
        intro j cj hj1 hj2 htop
        exact hb4 j cj hj1 (by omega) htop
    · rw [if_neg hp0] at hloop
      have hrr : (-1 : Int) = r := FMRes.ret.inj hloop
      omega
  | succ n ih =>
    intro i ret par opt r hn hpi hiq hpar hpar0 hacc hloop hr
    have hiq2 : i ≤ q := by omega
    simp only [fm_loop] at hloop
    by_cases hnum : isNumTok (tokenAt ts i) = true
    · rw [if_pos hnum] at hloop
      refine ih (i + 1) ret par opt r (by omega) (by omega) (by omega) ?_ hpar0 ?_ hloop hr
      · rw [depthAt_succ ts p i hpi, parenDelta_of_num _ hnum]
        omega
      · exact acc_extend ts p i ret opt hacc (Or.inl (tokClass_of_num _ hnum))
    · rw [if_neg hnum] at hloop
      by_cases hlp : tokenAt ts i = Token.lparen
      · rw [if_pos hlp] at hloop
        refine ih (i + 1) ret (par + 1) opt r (by omega) (by omega) (by omega) ?_ (by omega) ?_ hloop hr
        · rw [depthAt_succ ts p i hpi, hlp]
          simp [parenDelta]
          omega
        · refine acc_extend ts p i ret opt hacc (Or.inl ?_)
          rw [hlp]
          rfl
      · rw [if_neg hlp] at hloop
        by_cases hrp : tokenAt ts i = Token.rparen
        · rw [if_pos hrp] at hloop
          by_cases hpz : par = 0
          · rw [if_pos hpz] at hloop
            have hrr : (-1 : Int) = r := FMRes.ret.inj hloop
            omega
          · rw [if_neg hpz] at hloop
            refine ih (i + 1) ret (par - 1) opt r (by omega) (by omega) (by omega) ?_ (by omega) ?_ hloop hr
            · rw [depthAt_succ ts p i hpi, hrp]
              simp [parenDelta]
              omega
            · refine acc_extend ts p i ret opt hacc (Or.inr ?_)
              omega
        · rw [if_neg hrp] at hloop
          have hdl : parenDelta (tokenAt ts i) = 0 := by
            simp [parenDelta, hlp, hrp]
          by_cases hpp : 0 < par
          · rw [if_pos hpp] at hloop
            refine ih (i + 1) ret par opt r (by omega) (by omega) (by omega) ?_ hpar0 ?_ hloop hr
            · rw [depthAt_succ ts p i hpi, hdl]
              omega
            · refine acc_extend ts p i ret opt hacc (Or.inr ?_)
              omega
          · rw [if_neg hpp] at hloop
            have hpz : par = 0 := by omega
            cases hcls : tokClass (tokenAt ts i) with
            | none =>
              rw [hcls] at hloop
              exact FMRes.noConfusion hloop
            | some c =>
              rw [hcls] at hloop
              dsimp only at hloop
              have htop : TopOpAt ts p i c := ⟨by omega, hcls⟩
              by_cases hoc : opt ≤ c
              · rw [if_pos hoc] at hloop
                refine ih (i + 1) i par c r (by omega) (by omega) (by omega) ?_ hpar0 ?_ hloop hr
                · rw [depthAt_succ ts p i hpi, hdl]
                  omega
                · exact Or.inr (best_update ts p i ret opt c hacc hpi htop hoc)
              · rw [if_neg hoc] at hloop
                refine ih (i + 1) ret par opt r (by omega) (by omega) (by omega) ?_ hpar0 ?_ hloop hr
                · rw [depthAt_succ ts p i hpi, hdl]
                  omega
                · rcases hacc with ⟨_, hopt, _⟩ | hbest
                  · omega
                  · exact Or.inr (best_keep ts p i ret opt c hbest htop (by omega))

set_option maxRecDepth 10000

/-- Claim C1 (refuted; the failing run evaluated on the model): from a
freshly initialized pool of N = 32 slots, the claim says N consecutive
new_wp calls succeed with N distinct ids and the (N+1)-th fails cleanly
with PoolExhausted and never crashes.  In the code the scan loop guard
p->next != NULL stops before the last slot and exhaustion falls into
assert(0): only 31 allocations succeed (ids 0..30), and the 32nd call
crashes the process even though slot 31 is still free. -/
theorem C1_pool_exhaustion_crash :
    allocIds 32 init_wp_pool = List.range 31 ∧
    new_wp wp31 = NewWPRes.crash ∧
    (slotAt wp31.wp_pool 31).used = false := by decide

/-- Claim C2 (refuted; the failing runs evaluated on the model): the claim
says every error of the taxonomy is returned as an explicit result value
and the core never terminates the process on a condition reachable from
user input.  A top-level hexadecimal or register operand in a compound
expression reaches the assert(0) in the find_major precedence switch, and
pool exhaustion reaches the assert(0) in new_wp. -/
theorem C2_errors_not_returned :
    expr emptyRegs "0x1+1" = EvalRes.crash ∧
    expr emptyRegs "$a+1" = EvalRes.crash ∧
    new_wp wp31 = NewWPRes.crash := by decide

/-- Claim C3 (refuted; the failing runs evaluated on the model): the claim
says expr "-3+5" = 2, expr "3-(-2)" = 5 and expr "-2*-3" = 6, with a
TK_NEG major operator evaluating only the right subrange.  In the code
find_major does not skip or classify TK_NEG, so any range with a
top-level unary minus hits assert(0) in the precedence switch and all
three expressions crash (the TK_NEG arm of the eval switch is
unreachable). -/
theorem C3_unary_negation_crash :
    expr emptyRegs "-3+5" = EvalRes.crash ∧
    expr emptyRegs "3-(-2)" = EvalRes.crash ∧
    expr emptyRegs "-2*-3" = EvalRes.crash := by decide

/-- Claim C4 (refuted; the failing run evaluated on the model): the claim
says expr "0x10+1" = 17 and that operand tokens (hex literals, registers)
are skipped by the major-operator scan.  In the code find_major skips
only TK_NUM, so the TK_HEX operand of "0x10+1" reaches the precedence
switch and its assert(0). -/
theorem C4_hex_operand_crash :
    expr emptyRegs "0x10+1" = EvalRes.crash ∧
    find_major [Token.hex "0x10", Token.plus, Token.num "1"] 0 2 = FMRes.crash := by decide

/-- Claim C5 (refuted; the failing run evaluated on the model): the claim
says a failed evaluation of one slot leaves its last value unchanged and
does not prevent the remaining active slots from being checked.  In the
code the failure branch executes return rather than continue: with slot 0
active on the malformed "+" and slot 1 active on "1+1" with stale value 3,
the whole pass stops at slot 0 — slot 1 is neither evaluated nor
triggered — while the same scan started past slot 0 would trigger slot 1
and update its value to 2. -/
theorem C5_check_aborts_pass :
    check_watchpoints emptyRegs wpCheckSt = CheckRes.done wpCheckPool false [] (some 0) ∧
    check_go emptyRegs 1 (NR_WP - 1) wpCheckPool false [] =
      CheckRes.done
        (setSlot wpCheckPool 1
          { no := 1, next := some 2, used := true, expr := "1+1", old_value := 2 })
        true [1] none := by decide

/-- Claim C6 (refuted; the failing runs evaluated on the model): the claim
says free_wp clears the active flag of exactly the released slot and
corrupts no other slot.  With slots 0, 1, 2 active, releasing slot 1
relinks first and then clears p->next->used, i.e. the used flag of slot 2:
slot 1 stays flagged used and slot 2 is wrongly freed.  Releasing the head
slot 0 sets head = NULL while slot 1 is still active, losing the active
list. -/
theorem C6_free_wp_corrupts_partition :
    freeUsed (free_wp wp3 1) 1 = some true ∧
    freeUsed (free_wp wp3 1) 2 = some false ∧
    freeUsed (free_wp wp3 0) 1 = some true ∧
    freeHead (free_wp wp3 0) = some none := by decide

/-- Claim C7 (refuted; the failing run evaluated on the model): the claim
says info_watchpoints enumerates exactly the active slots in ascending id
order.  After a single allocation the only active slot is 0, but the code
walks the next chain from head — still the full pool chain — and prints
all 32 slots, 31 of them inactive. -/
theorem C7_info_lists_inactive :
    activeIds wp1.wp_pool = [0] ∧
    (info_watchpoints wp1).map List.length = some 32 := by decide

/-- Claim C8: whenever find_major returns an index for a range, that index
is a top-level operator of the highest precedence class present (class 2
for + and - over class 1 for * and /) and the rightmost occurrence of
that class; consequently expr "2+3*4" = 14, expr "8-3-2" = 3 and
expr "16/4/2" = 2. -/
theorem C8_major_selection :
    (∀ ts p q i, find_major ts p q = FMRes.ret i → 0 ≤ i → IsMajorOf ts p q i) ∧
    expr emptyRegs "2+3*4" = EvalRes.ok 14 ∧
    expr emptyRegs "8-3-2" = EvalRes.ok 3 ∧
    expr emptyRegs "16/4/2" = EvalRes.ok 2 := by
  refine ⟨?_, by decide, by decide, by decide⟩
  intro ts p q i hfm hi
  by_cases hpq : p ≤ q + 1
  · refine fm_loop_post ts p q ((q + 1 - p).toNat) p (-1) 0 0 i rfl le_rfl hpq ?_ le_rfl ?_ hfm hi
    · rw [depthAt_base ts p p le_rfl]
    · exact Or.inl ⟨rfl, rfl, fun j cj h1 h2 _ => by omega⟩
  · exfalso
    unfold find_major at hfm
    have h0 : (q + 1 - p).toNat = 0 := by omega
    rw [h0] at hfm
    simp only [fm_loop] at hfm
    rw [if_pos trivial] at hfm
    have hi2 : (-1 : Int) = i := FMRes.ret.inj hfm
    omega

/-- Witness for C8: the major operator of the token range of "8-3-2" is
index 3, the rightmost of the two class-2 minus operators. -/
theorem C8_major_selection_witness : IsMajorOf ts8ex 0 4 3 :=
  C8_major_selection.1 ts8ex 0 4 3 (by decide) (by decide)

/-- Claim C9, counterexample: the claim says expr "-7/2" returns -3 with
success; the run instead reaches the assert(0) of find_major on the
TK_NEG token (the C3 defect), so no value is returned at all. -/
theorem C9_neg_div_counterexample : expr emptyRegs "-7/2" = EvalRes.crash := by decide

/-- Claim C9 (amended): when the major operator of a range is '/', eval
fails (success flag false) whenever the right operand evaluates to zero,
traps on the overflow pair INT_MIN / -1 (undefined behavior of the C
signed division, reachable e.g. through expr "2147483648/(0-1)"), and on
every other operand pair returns the signed integer quotient truncated
toward zero; the concrete truncation example must also avoid the
top-level unary minus that crashes find_major, e.g. expr "(0-7)/2"
yields the word whose signed 32-bit value is -3, while expr "-7/2"
itself crashes. -/
theorem C9_division_truncation :
    (∀ (R : String → Option Nat) (ts : List Token) (fuel : Nat) (p q m : Int) (v1 v2 : Nat),
      p < q →
      check_parentheses ts p q = false →
      find_major ts p q = FMRes.ret m →
      0 ≤ m →
      tokenAt ts m = Token.slash →
      eval R ts fuel p (m - 1) = EvalRes.ok v1 →
      eval R ts fuel (m + 1) q = EvalRes.ok v2 →
      eval R ts (fuel + 1) p q =
        (if v2 = 0 then EvalRes.fail
         else if toSigned v1 = -(2 ^ 31) ∧ toSigned v2 = -1 then EvalRes.crash
         else EvalRes.ok (toWord (Int.tdiv (toSigned v1) (toSigned v2))))) ∧
    expr emptyRegs "1/0" = EvalRes.fail ∧
    expr emptyRegs "2147483648/(0-1)" = EvalRes.crash ∧
    expr emptyRegs "7/2" = EvalRes.ok 3 ∧
    expr emptyRegs "(0-7)/2" = EvalRes.ok 4294967293 ∧
    toSigned 4294967293 = -3 := by
  refine ⟨?_, by decide, by decide, by decide, by decide, by decide⟩
  intro R ts fuel p q m v1 v2 hpq hcp hfm hm hsl h1 h2
  have hqp : ¬ q < p := by omega
  have hpe : ¬ p = q := by omega
  have hm0 : ¬ m < 0 := by omega
  simp only [eval]
  rw [if_neg hqp, if_neg hpe, hcp]
  simp only [Bool.false_eq_true, if_false, hfm]
  rw [if_neg hm0, h1, h2, hsl]

/-- Witness for C9: on the token range of "(0-7)/2" with major operator
'/' at index 5 and operand values 4294967289 (the word of -7) and 2, one
unfolding of eval produces the truncated signed quotient. -/
theorem C9_division_truncation_witness :
    eval emptyRegs ts9ex 8 0 6 =
      (if (2 : Nat) = 0 then EvalRes.fail
       else if toSigned 4294967289 = -(2 ^ 31) ∧ toSigned 2 = -1 then EvalRes.crash
       else EvalRes.ok (toWord (Int.tdiv (toSigned 4294967289) (toSigned 2)))) :=
  C9_division_truncation.1 emptyRegs ts9ex 7 0 6 5 4294967289 2 (by decide) (by decide)
    (by decide) (by decide) (by decide) (by decide) (by decide)

/-- Claim C10, counterexample: the claim says each new_wp call returns the
lowest-indexed slot whose used flag is false.  After 31 allocations the
lowest unused slot is 31, but the 32nd call crashes in assert(0) instead
of returning it, because the loop guard p->next != NULL stops at slot 31. -/
theorem C10_skips_last_slot :
    lowestUnused wp31.wp_pool = some 31 ∧
    new_wp wp31 = NewWPRes.crash := by decide

/-- Claim C10 (amended): from a freshly initialized pool with no
intervening release, the first NR_WP - 1 = 31 new_wp calls return slots in
ascending index order 0, 1, ..., 30, each call marking used and returning
the lowest-indexed slot whose used flag is false; the loop guard never
lets the scan reach slot 31, so the property stops after 31 calls (the
32nd crashes, see the counterexample). -/
theorem C10_ascending_allocation :
    ∀ k ∈ List.range 31,
      new_wp (allocState k init_wp_pool) = NewWPRes.alloc k (allocState (k + 1) init_wp_pool) ∧
      lowestUnused (allocState k init_wp_pool).wp_pool = some k := by decide

/-- Witness for C10: the sixth allocation returns slot 5, the lowest
unused slot at that point. -/
theorem C10_ascending_allocation_witness :
    new_wp (allocState 5 init_wp_pool) = NewWPRes.alloc 5 (allocState 6 init_wp_pool) ∧
    lowestUnused (allocState 5 init_wp_pool).wp_pool = some 5 :=
  C10_ascending_allocation 5 (by decide)
